import Mathlib

/-!
Shallow embedding of the order-book store (`src/stores/orderbook.ts`) and the
web event subscriber (`WebEventSubscriber`) of the puglies repository, together
with proofs about snapshot/delta application and subscription teardown.

Price levels carry `price` and `size` as decimal strings, exactly as in the
TypeScript types (`OrderBookLevel { price: string; size: string }`).  Numeric
comparisons in the source go through JavaScript `parseFloat`; we model the
value of a decimal string as an `Option ℚ` (`none` plays the role of `NaN`),
covering sign/digits/decimal-point literals parsed as a longest valid prefix
(the exponent forms of `parseFloat`, which never occur for the decimal price
and size strings of this data model, are out of scope and map to `none`).
-/

namespace Puglies

/-- Accumulate decimal digits from the front of a character list, returning the
accumulated value, the number of digits consumed and the remaining characters.
Models the digit-run consumption of JavaScript `parseFloat`. -/
def parseDigits : List Char → ℕ → ℕ → ℕ × ℕ × List Char
  | [], acc, n => (acc, n, [])
  | c :: cs, acc, n =>
    if c.isDigit then parseDigits cs (10 * acc + (c.toNat - 48)) (n + 1)
    else (acc, n, c :: cs)

/-- Value of a decimal string literal under JavaScript `parseFloat`: an
optional sign, an integer digit run, and an optional fractional digit run
after a decimal point, parsed as the longest valid prefix; `none` models
`NaN` (no digit consumed at all). -/
def parseFloatChars (cs : List Char) : Option ℚ :=
  let signSplit : Bool × List Char :=
    match cs with
    | '-' :: rest => (true, rest)
    | '+' :: rest => (false, rest)
    | _ => (false, cs)
  let ipart := parseDigits signSplit.2 0 0
  let fpart :=
    match ipart.2.2 with
    | '.' :: rest => parseDigits rest 0 0
    | _ => (0, 0, ([] : List Char))
  if ipart.2.1 + fpart.2.1 = 0 then none
  else
    let n : ℤ := (ipart.1 * 10 ^ fpart.2.1 + fpart.1 : ℕ)
    some (mkRat (if signSplit.1 then -n else n) (10 ^ fpart.2.1))

/-- JavaScript `parseFloat` on a string, as an exact rational (`none` = NaN). -/
def parseFloat (s : String) : Option ℚ := parseFloatChars s.data

/-- Lift a boolean comparison on rationals to `Option ℚ`; any comparison with
`none` (NaN) is false, as in JavaScript. -/
def liftCb (cb : ℚ → ℚ → Bool) : Option ℚ → Option ℚ → Bool
  | some x, some y => cb x y
  | some _, none => false
  | none, _ => false

/-- Strict less-than on rationals as a boolean. -/
def ltB (x y : ℚ) : Bool := decide (x < y)

/-- Strict greater-than on rationals as a boolean. -/
def gtB (x y : ℚ) : Bool := decide (y < x)

/-- JavaScript `<` on two `parseFloat` results (false when either is NaN). -/
def jsLtB (a b : Option ℚ) : Bool := liftCb ltB a b

/-- JavaScript `>` on two `parseFloat` results (false when either is NaN). -/
def jsGtB (a b : Option ℚ) : Bool := liftCb gtB a b

/-- JavaScript `t || now` for an optional numeric timestamp: `none`
(undefined) and `0` are falsy and yield `now`. -/
def jsOrNow (t : Option ℤ) (now : ℤ) : ℤ :=
  match t with
  | some v => if v = 0 then now else v
  | none => now

/-- `Array.prototype.findIndex`: index of the first element satisfying the
predicate (`none` models the JavaScript result `-1`). -/
def findIndex (p : α → Bool) : List α → Option ℕ
  | [] => none
  | a :: as => if p a then some 0 else (findIndex p as).map (· + 1)

/-- `Array.prototype.splice(i, 1)`: drop the element at index `i`. -/
def removeAt : List α → ℕ → List α
  | [], _ => []
  | _ :: as, 0 => as
  | a :: as, n + 1 => a :: removeAt as n

/-- `levels[i] = v`: replace the element at index `i`. -/
def setAt : List α → ℕ → α → List α
  | [], _, _ => []
  | _ :: as, 0, v => v :: as
  | a :: as, n + 1, v => a :: setAt as n v

/-- `Array.prototype.splice(i, 0, v)`: insert `v` before index `i`. -/
def insertAt : List α → ℕ → α → List α
  | ls, 0, v => v :: ls
  | [], _ + 1, v => [v]
  | a :: as, n + 1, v => a :: insertAt as n v

/-- Predicate-directed ordered insertion: place `x` immediately before the
first element satisfying `p` (at the end when none does).  This is the
recursive form of `findIndex` followed by `splice(i, 0, x)`. -/
def insertP (p : α → Bool) (x : α) : List α → List α
  | [] => [x]
  | a :: as => if p a then x :: a :: as else a :: insertP p x as

/-- `OrderBookLevel` from `src/lib/types.ts`: decimal strings end-to-end. -/
structure OrderBookLevel where
  price : String
  size : String
deriving DecidableEq, Repr

/-- `OrderBookData` stored per instrument by the order-book store. -/
structure OrderBookData where
  bids : List OrderBookLevel
  asks : List OrderBookLevel
  lastUpdate : Option ℤ
deriving DecidableEq, Repr

/-- `OrderBookSnapshot` (fields used by `setSnapshot`; the optional metadata
fields `event_type`, `market`, `hash`, unused by the store, are omitted).
`timestamp?: number` becomes `Option ℤ`. -/
structure OrderBookSnapshot where
  asset_id : String
  timestamp : Option ℤ
  bids : List OrderBookLevel
  asks : List OrderBookLevel
deriving DecidableEq, Repr

/-- `OrderBookDelta` (fields used by `applyDelta`; optional metadata fields
`event_type`, `market` are omitted).  `side` is a plain string on the wire. -/
structure OrderBookDelta where
  asset_id : String
  side : String
  price : String
  size : String
  timestamp : Option ℤ
deriving DecidableEq, Repr

/-- The `orderBooks` map of the store: asset id to stored book. -/
abbrev Books := String → Option OrderBookData

/-- `setSnapshot` of `src/stores/orderbook.ts`: unconditionally installs the
snapshot's ladders for the given asset id, with
`lastUpdate = snapshot.timestamp || Date.now()`. -/
def setSnapshot (now : ℤ) (assetId : String) (snapshot : OrderBookSnapshot)
    (books : Books) : Books :=
  fun k =>
    if k = assetId then
      some { bids := snapshot.bids, asks := snapshot.asks,
             lastUpdate := some (jsOrNow snapshot.timestamp now) }
    else books k

/-- The ladder transformation at the heart of `applyDelta`: look up the price
by string equality, then remove / replace / insert-in-sorted-position,
with the sorted position found by `parseFloat` comparison (descending for
`side == "BUY"`, ascending otherwise). -/
def applyDeltaLevels (side dp dsz : String) (levels : List OrderBookLevel) :
    List OrderBookLevel :=
  let existingIdx := findIndex (fun l => l.price = dp) levels
  let newSize := parseFloat dsz
  if newSize = some 0 then
    match existingIdx with
    | some i => removeAt levels i
    | none => levels
  else
    match existingIdx with
    | some i => setAt levels i { price := dp, size := dsz }
    | none =>
      let newLevel : OrderBookLevel := { price := dp, size := dsz }
      let insertIdx := findIndex (fun l =>
        if side = "BUY" then jsGtB (parseFloat dp) (parseFloat l.price)
        else jsLtB (parseFloat dp) (parseFloat l.price)) levels
      match insertIdx with
      | none => levels ++ [newLevel]
      | some i => insertAt levels i newLevel

/-- `applyDelta` of `src/stores/orderbook.ts`: no-op when no book is stored
for `delta.asset_id`; otherwise transform the side selected by
`delta.side === "BUY"` through `applyDeltaLevels`, leave the other ladder,
and set `lastUpdate = delta.timestamp || Date.now()`. -/
def applyDelta (now : ℤ) (delta : OrderBookDelta) (books : Books) : Books :=
  match books delta.asset_id with
  | none => books
  | some current =>
    let levels := if delta.side = "BUY" then current.bids else current.asks
    let newLevels := applyDeltaLevels delta.side delta.price delta.size levels
    let updatedBook : OrderBookData :=
      { bids := if delta.side = "BUY" then newLevels else current.bids,
        asks := if delta.side = "BUY" then current.asks else newLevels,
        lastUpdate := some (jsOrNow delta.timestamp now) }
    fun k => if k = delta.asset_id then some updatedBook else books k

/-- A sequence of `applyDelta` calls, oldest first. -/
def runDeltas (now : ℤ) (ds : List OrderBookDelta) (books : Books) : Books :=
  ds.foldl (fun bs d => applyDelta now d bs) books

/-- One store action: either a `setSnapshot` call or an `applyDelta` call. -/
inductive BookOp where
  | snap (assetId : String) (s : OrderBookSnapshot)
  | delta (d : OrderBookDelta)
deriving DecidableEq, Repr

/-- Run one store action. -/
def runOp (now : ℤ) (books : Books) : BookOp → Books
  | .snap a s => setSnapshot now a s books
  | .delta d => applyDelta now d books

/-- Run a sequence of store actions, oldest first. -/
def runOps (now : ℤ) (ops : List BookOp) (books : Books) : Books :=
  ops.foldl (runOp now) books

/-! ### Order and invariant predicates -/

/-- Ladder strictly sorted by the numeric value of the price strings, under
the boolean comparison `cb`; any level whose price fails to parse breaks
the relation. -/
def sortedBy (cb : ℚ → ℚ → Bool) (ls : List OrderBookLevel) : Prop :=
  List.Pairwise
    (fun a b => liftCb cb (parseFloat a.price) (parseFloat b.price) = true) ls

/-- Asks: strictly ascending numeric price. -/
def asksOrdered (ls : List OrderBookLevel) : Prop := sortedBy ltB ls

/-- Bids: strictly descending numeric price. -/
def bidsOrdered (ls : List OrderBookLevel) : Prop := sortedBy gtB ls

/-- No two levels of the ladder carry the same price string. -/
def pricesDistinct (ls : List OrderBookLevel) : Prop :=
  List.Pairwise (fun a b => a.price ≠ b.price) ls

/-- All prices of the ladder are drawn from the string pool `S`. -/
def pricesFrom (S : List String) (ls : List OrderBookLevel) : Prop :=
  ∀ l, l ∈ ls → l.price ∈ S

/-- A pool of canonical price strings: every member parses, and numerically
equal members are the same string (no `"0.5"` next to `"0.50"`). -/
def CanonicalPrices (S : List String) : Prop :=
  (∀ p, p ∈ S → (parseFloat p).isSome = true) ∧
  (∀ p, p ∈ S → ∀ q, q ∈ S → parseFloat p = parseFloat q → p = q)

/-- Both ladders of a book strictly sorted, with prices from the pool `S`. -/
def BookInv (S : List String) (bk : OrderBookData) : Prop :=
  bidsOrdered bk.bids ∧ asksOrdered bk.asks ∧
  pricesFrom S bk.bids ∧ pricesFrom S bk.asks

/-- Every stored book satisfies `BookInv`. -/
def BooksInv (S : List String) (books : Books) : Prop :=
  ∀ k bk, books k = some bk → BookInv S bk

/-- No level of the ladder has numeric size zero. -/
def noZeroSizes (ls : List OrderBookLevel) : Prop :=
  ∀ l, l ∈ ls → parseFloat l.size ≠ some 0

/-- Every stored book is free of size-zero levels on both sides. -/
def BooksZeroFree (books : Books) : Prop :=
  ∀ k bk, books k = some bk → noZeroSizes bk.bids ∧ noZeroSizes bk.asks

/-- Snapshot operations whose ladders carry no size-zero level; delta
operations are unconstrained. -/
def opSnapZeroFree : BookOp → Prop
  | .snap _ s => noZeroSizes s.bids ∧ noZeroSizes s.asks
  | .delta _ => True

/-! ### `WebEventSubscriber` (SSE adapter) -/

/-- Observable state of `WebEventSubscriber`: the `callbacks` map from event
name to the set of registered callbacks (callbacks identified by `ℕ`), kept
in insertion order, and whether the `eventSource` SSE connection is open. -/
structure WebSubscriberState where
  callbacks : List (String × Finset ℕ)
  eventSourceOpen : Bool
deriving DecidableEq

/-- `Map.prototype.get` on the callbacks map. -/
def mapGet : List (String × Finset ℕ) → String → Option (Finset ℕ)
  | [], _ => none
  | e :: es, k => if e.1 = k then some e.2 else mapGet es k

/-- In-place mutation of the `Set` stored under key `k`: every entry under
that key now holds the new set (reachable maps have unique keys). -/
def mapPut (m : List (String × Finset ℕ)) (k : String) (v : Finset ℕ) :
    List (String × Finset ℕ) :=
  m.map (fun e => if e.1 = k then (e.1, v) else e)

/-- `getTotalSubscribers`: total number of registered callbacks. -/
def totalSubscribers (m : List (String × Finset ℕ)) : ℕ :=
  (m.map (fun e => e.2.card)).sum

/-- `WebEventSubscriber.subscribe`: ensure the SSE connection, create the
event's entry when absent (`Map.set` appends in insertion order), and add
the callback to its set. -/
def subscribe (eventName : String) (cb : ℕ) (st : WebSubscriberState) :
    WebSubscriberState :=
  let cbs :=
    match mapGet st.callbacks eventName with
    | none => st.callbacks ++ [(eventName, {cb})]
    | some s => mapPut st.callbacks eventName (insert cb s)
  { callbacks := cbs, eventSourceOpen := true }

/-- `this.callbacks.get(eventName)?.delete(callback)`: delete the callback
from the event's set, a no-op when the event has no entry. -/
def unsubCbs (eventName : String) (cb : ℕ) (m : List (String × Finset ℕ)) :
    List (String × Finset ℕ) :=
  match mapGet m eventName with
  | none => m
  | some s => mapPut m eventName (s.erase cb)

/-- The unsubscribe handle returned by `WebEventSubscriber.subscribe`: delete
the callback from the event's set, then close and clear the `eventSource`
when no subscribers remain anywhere (otherwise the connection state is
untouched). -/
def unsubscribe (eventName : String) (cb : ℕ) (st : WebSubscriberState) :
    WebSubscriberState :=
  let cbs := unsubCbs eventName cb st.callbacks
  { callbacks := cbs,
    eventSourceOpen :=
      if totalSubscribers cbs = 0 then false else st.eventSourceOpen }

/-! ### Concrete example data -/

/-- A store holding one instrument `"A"`. -/
def singleBook (bk : OrderBookData) : Books :=
  fun k => if k = "A" then some bk else none

/-- Book with one ask level priced `"0.5"`, updated at time 100. -/
def exBook1 : OrderBookData :=
  { bids := [], asks := [{ price := "0.5", size := "1" }], lastUpdate := some 100 }

/-- A snapshot older (timestamp 50) than `exBook1` (timestamp 100). -/
def exStaleSnap : OrderBookSnapshot :=
  { asset_id := "A", timestamp := some 50, bids := [], asks := [] }

/-- A sell delta at price `"0.50"`, numerically equal to the stored `"0.5"`
but a different string. -/
def exDupDelta : OrderBookDelta :=
  { asset_id := "A", side := "SELL", price := "0.50", size := "2",
    timestamp := some 3 }

/-- A snapshot carrying a size-zero bid level. -/
def exZeroSnap : OrderBookSnapshot :=
  { asset_id := "A", timestamp := some 1,
    bids := [{ price := "0.5", size := "0" }], asks := [] }

/-- A size-zero sell delta at a price absent from `exBook1`. -/
def exAbsentZeroDelta : OrderBookDelta :=
  { asset_id := "A", side := "SELL", price := "0.9", size := "0",
    timestamp := some 7 }

/-- The snapshot of the spec scenario (§8). -/
def exScenarioSnap : OrderBookSnapshot :=
  { asset_id := "A", timestamp := some 1,
    bids := [{ price := "0.50", size := "100" }, { price := "0.49", size := "50" }],
    asks := [{ price := "0.51", size := "80" }] }

/-- The size-zero bid delta of the spec scenario (§8). -/
def exScenarioDelta : OrderBookDelta :=
  { asset_id := "A", side := "BUY", price := "0.50", size := "0",
    timestamp := some 2 }

/-- The ask-insertion delta of the spec scenario (§8). -/
def exInsertDelta : OrderBookDelta :=
  { asset_id := "A", side := "SELL", price := "0.52", size := "30",
    timestamp := some 3 }

instance instSortedByDec (cb : ℚ → ℚ → Bool) (ls : List OrderBookLevel) :
    Decidable (sortedBy cb ls) :=
  List.instDecidablePairwise ls

instance instPricesDistinctDec (ls : List OrderBookLevel) :
    Decidable (pricesDistinct ls) :=
  List.instDecidablePairwise ls

instance instAsksOrderedDec (ls : List OrderBookLevel) :
    Decidable (asksOrdered ls) :=
  instSortedByDec ltB ls

instance instBidsOrderedDec (ls : List OrderBookLevel) :
    Decidable (bidsOrdered ls) :=
  instSortedByDec gtB ls

instance instPricesFromDec (S : List String) (ls : List OrderBookLevel) :
    Decidable (pricesFrom S ls) :=
  inferInstanceAs (Decidable (∀ l ∈ ls, l.price ∈ S))

instance instNoZeroSizesDec (ls : List OrderBookLevel) :
    Decidable (noZeroSizes ls) :=
  inferInstanceAs (Decidable (∀ l ∈ ls, parseFloat l.size ≠ some 0))

instance instCanonicalPricesDec (S : List String) :
    Decidable (CanonicalPrices S) :=
  inferInstanceAs (Decidable
    ((∀ p, p ∈ S → (parseFloat p).isSome = true) ∧
     (∀ p, p ∈ S → ∀ q, q ∈ S → parseFloat p = parseFloat q → p = q)))

instance instBookInvDec (S : List String) (bk : OrderBookData) :
    Decidable (BookInv S bk) :=
  inferInstanceAs (Decidable
    (bidsOrdered bk.bids ∧ asksOrdered bk.asks ∧
     pricesFrom S bk.bids ∧ pricesFrom S bk.asks))

instance instOpSnapZeroFreeDec (op : BookOp) : Decidable (opSnapZeroFree op) :=
  match op with
  | .snap _ s => inferInstanceAs (Decidable (noZeroSizes s.bids ∧ noZeroSizes s.asks))
  | .delta _ => inferInstanceAs (Decidable True)

/-! ### Lemmas about the list primitives -/

theorem findIndex_eq_none_iff (p : α → Bool) (ls : List α) :
    findIndex p ls = none ↔ ∀ a, a ∈ ls → p a = false := by
  induction ls with
  | nil => simp [findIndex]
  | cons a as ih =>
    by_cases hp : p a
    · simp [findIndex, hp]
    · simp [findIndex, hp, ih, Option.map_eq_none]

theorem removeAt_sublist : ∀ (ls : List α) (i : ℕ), List.Sublist (removeAt ls i) ls
  | [], _ => by simp [removeAt]
  | _ :: as, 0 => by simp [removeAt]
  | a :: as, n + 1 => by
    simpa [removeAt] using List.Sublist.cons₂ a (removeAt_sublist as n)

theorem mem_setAt : ∀ (ls : List α) (i : ℕ) (v a : α),
    a ∈ setAt ls i v → a = v ∨ a ∈ ls
  | [], _, _, _ => by simp [setAt]
  | b :: as, 0, v, a => by
    intro h
    rcases List.mem_cons.mp h with h | h
    · exact Or.inl h
    · exact Or.inr (List.mem_cons_of_mem b h)
  | b :: as, n + 1, v, a => by
    intro h
    rcases List.mem_cons.mp h with h | h
    · exact Or.inr (h ▸ List.mem_cons_self b as)
    · rcases mem_setAt as n v a h with h | h
      · exact Or.inl h
      · exact Or.inr (List.mem_cons_of_mem b h)

theorem setAt_price_map (dp ds : String) :
    ∀ (ls : List OrderBookLevel) (i : ℕ),
      findIndex (fun l => l.price = dp) ls = some i →
      (setAt ls i { price := dp, size := ds }).map OrderBookLevel.price
        = ls.map OrderBookLevel.price
  | [], i => by simp [findIndex]
  | a :: as, i => by
    intro h
    simp only [findIndex] at h
    split at h
    case isTrue hp =>
      injection h with h1
      subst h1
      have hp' : a.price = dp := by simpa using hp
      simp [setAt, hp']
    case isFalse hp =>
      cases hf : findIndex (fun l => l.price = dp) as with
      | none => rw [hf] at h; simp at h
      | some j =>
        rw [hf] at h
        simp only [Option.map_some'] at h
        injection h with h1
        subst h1
        simp [setAt, setAt_price_map dp ds as j hf]

theorem insert_match_eq_insertP (p : α → Bool) (x : α) :
    ∀ ls : List α,
      (match findIndex p ls with
       | none => ls ++ [x]
       | some i => insertAt ls i x) = insertP p x ls
  | [] => by simp [findIndex, insertP]
  | a :: as => by
    by_cases hp : p a
    · simp [findIndex, hp, insertP, insertAt]
    · have ih := insert_match_eq_insertP p x as
      cases h : findIndex p as with
      | none =>
        simp [findIndex, hp, h, insertP]
        simpa [h] using ih
      | some i =>
        simp [findIndex, hp, h, insertP, insertAt]
        simpa [h] using ih

theorem mem_insertP (p : α → Bool) (x : α) :
    ∀ (ls : List α) (a : α), a ∈ insertP p x ls → a = x ∨ a ∈ ls
  | [], a => by simp [insertP]
  | b :: as, a => by
    intro h
    by_cases hp : p b
    · simp only [insertP, hp, if_pos] at h
      rcases List.mem_cons.mp h with h | h
      · exact Or.inl h
      · exact Or.inr h
    · simp only [insertP, hp, if_neg, not_false_iff] at h
      rcases List.mem_cons.mp h with h | h
      · exact Or.inr (h ▸ List.mem_cons_self b as)
      · rcases mem_insertP p x as a h with h | h
        · exact Or.inl h
        · exact Or.inr (List.mem_cons_of_mem b h)

/-! ### Sorted insertion -/

/-- Inserting a level with parsed value `q` in front of the first level whose
parsed value beats `q` (under a transitive, total strict comparison `cb`)
preserves strict `cb`-sortedness, provided no stored level shares the value
`q`. -/
theorem insertP_pairwise
    (cb : ℚ → ℚ → Bool)
    (htrans : ∀ x y z, cb x y = true → cb y z = true → cb x z = true)
    (htotal : ∀ x y : ℚ, x ≠ y → cb x y = false → cb y x = true)
    (x : OrderBookLevel) (q : ℚ) (hq : parseFloat x.price = some q) :
    ∀ ls : List OrderBookLevel,
      List.Pairwise
        (fun a b => liftCb cb (parseFloat a.price) (parseFloat b.price) = true) ls →
      (∀ l, l ∈ ls → ∃ v, parseFloat l.price = some v ∧ v ≠ q) →
      List.Pairwise
        (fun a b => liftCb cb (parseFloat a.price) (parseFloat b.price) = true)
        (insertP (fun l => liftCb cb (some q) (parseFloat l.price)) x ls)
  | [], _, _ => by simp [insertP]
  | b :: bs, hs, hvals => by
    rcases List.pairwise_cons.mp hs with ⟨hb, hbs⟩
    rcases hvals b (List.mem_cons_self b bs) with ⟨vb, hvb, hvbq⟩
    by_cases hp : liftCb cb (some q) (parseFloat b.price) = true
    · rw [insertP, if_pos hp]
      refine List.pairwise_cons.mpr ⟨?_, hs⟩
      intro a ha
      rcases List.mem_cons.mp ha with rfl | ha
      · rw [hq, hvb]
        rw [hvb] at hp
        exact hp
      · have hba := hb a ha
        rw [hvb] at hp hba
        cases hva : parseFloat a.price with
        | none => rw [hva] at hba; simp [liftCb] at hba
        | some va =>
          rw [hva] at hba
          rw [hq]
          simp only [liftCb] at hp hba ⊢
          exact htrans q vb va hp hba
    · rw [insertP, if_neg hp]
      refine List.pairwise_cons.mpr ⟨?_, ?_⟩
      · intro a ha
        rcases mem_insertP _ x _ a ha with rfl | ha
        · rw [hvb, hq]
          rw [hvb] at hp
          simp only [liftCb] at hp ⊢
          exact htotal q vb (fun h => hvbq h.symm) (by simpa using hp)
        · exact hb a ha
      · exact insertP_pairwise cb htrans htotal x q hq bs hbs
          (fun l hl => hvals l (List.mem_cons_of_mem b hl))

/-- Sortedness only depends on the sequence of price strings. -/
theorem sortedBy_of_price_map_eq (cb : ℚ → ℚ → Bool) (ls₁ ls₂ : List OrderBookLevel)
    (h : ls₁.map OrderBookLevel.price = ls₂.map OrderBookLevel.price)
    (hs : sortedBy cb ls₂) : sortedBy cb ls₁ := by
  unfold sortedBy at *
  have h₁ :
      List.Pairwise
        (fun p₁ p₂ : String => liftCb cb (parseFloat p₁) (parseFloat p₂) = true)
        (ls₂.map OrderBookLevel.price) :=
    List.pairwise_map.mpr hs
  rw [← h] at h₁
  exact List.pairwise_map.mp h₁

/-- The ladder transformation of `applyDelta` preserves strict sortedness and
the price pool, for a canonical pool `S` and a delta price drawn from `S`. -/
theorem applyDeltaLevels_inv
    (cb : ℚ → ℚ → Bool)
    (htrans : ∀ x y z, cb x y = true → cb y z = true → cb x z = true)
    (htotal : ∀ x y : ℚ, x ≠ y → cb x y = false → cb y x = true)
    (S : List String) (hS : CanonicalPrices S)
    (side dp dsz : String) (hdp : dp ∈ S)
    (hpred : ∀ l : OrderBookLevel,
      (if side = "BUY" then jsGtB (parseFloat dp) (parseFloat l.price)
       else jsLtB (parseFloat dp) (parseFloat l.price))
      = liftCb cb (parseFloat dp) (parseFloat l.price))
    (ls : List OrderBookLevel)
    (hs : sortedBy cb ls) (hfrom : pricesFrom S ls) :
    sortedBy cb (applyDeltaLevels side dp dsz ls) ∧
      pricesFrom S (applyDeltaLevels side dp dsz ls) := by
  simp only [applyDeltaLevels]
  by_cases hz : parseFloat dsz = some 0
  · rw [if_pos hz]
    cases hf : findIndex (fun l => l.price = dp) ls with
    | none => exact ⟨hs, hfrom⟩
    | some i =>
      refine ⟨List.Pairwise.sublist (removeAt_sublist ls i) hs, ?_⟩
      intro l hl
      exact hfrom l ((removeAt_sublist ls i).subset hl)
  · rw [if_neg hz]
    cases hf : findIndex (fun l => l.price = dp) ls with
    | some i =>
      constructor
      · exact sortedBy_of_price_map_eq cb _ ls (setAt_price_map dp dsz ls i hf) hs
      · intro l hl
        rcases mem_setAt ls i _ l hl with rfl | hl
        · exact hdp
        · exact hfrom l hl
    | none =>
      rw [insert_match_eq_insertP]
      have hfun :
          (fun l : OrderBookLevel =>
            if side = "BUY" then jsGtB (parseFloat dp) (parseFloat l.price)
            else jsLtB (parseFloat dp) (parseFloat l.price))
          = (fun l : OrderBookLevel =>
              liftCb cb (parseFloat dp) (parseFloat l.price)) :=
        funext hpred
      rw [hfun]
      rcases Option.isSome_iff_exists.mp (hS.1 dp hdp) with ⟨q, hq⟩
      rw [hq]
      have hne : ∀ l, l ∈ ls → l.price ≠ dp := by
        intro l hl
        have := (findIndex_eq_none_iff _ ls).mp hf l hl
        simpa using this
      constructor
      · refine insertP_pairwise cb htrans htotal _ q hq ls hs ?_
        intro l hl
        rcases Option.isSome_iff_exists.mp (hS.1 l.price (hfrom l hl)) with ⟨v, hv⟩
        refine ⟨v, hv, ?_⟩
        intro hvq
        apply hne l hl
        exact hS.2 l.price (hfrom l hl) dp hdp (by rw [hv, hq, hvq])
      · intro l hl
        rcases mem_insertP _ _ ls l hl with rfl | hl
        · exact hdp
        · exact hfrom l hl

theorem ltB_trans (x y z : ℚ) : ltB x y = true → ltB y z = true → ltB x z = true := by
  simp only [ltB, decide_eq_true_eq]
  exact lt_trans

theorem ltB_total (x y : ℚ) : x ≠ y → ltB x y = false → ltB y x = true := by
  simp only [ltB, decide_eq_false_iff_not, decide_eq_true_eq]
  intro hne hnlt
  exact lt_of_le_of_ne (not_lt.mp hnlt) (fun h => hne h.symm)

theorem gtB_trans (x y z : ℚ) : gtB x y = true → gtB y z = true → gtB x z = true := by
  simp only [gtB, decide_eq_true_eq]
  intro h₁ h₂
  exact lt_trans h₂ h₁

theorem gtB_total (x y : ℚ) : x ≠ y → gtB x y = false → gtB y x = true := by
  simp only [gtB, decide_eq_false_iff_not, decide_eq_true_eq]
  intro hne hnlt
  exact lt_of_le_of_ne (not_lt.mp hnlt) hne

/-- A single `applyDelta` preserves the both-ladders-sorted invariant over a
canonical price pool. -/
theorem applyDelta_BooksInv (S : List String) (hS : CanonicalPrices S)
    (now : ℤ) (d : OrderBookDelta) (hdp : d.price ∈ S)
    (books : Books) (hb : BooksInv S books) :
    BooksInv S (applyDelta now d books) := by
  intro k bk hk
  cases hcur : books d.asset_id with
  | none =>
    rw [applyDelta, hcur] at hk
    exact hb k bk hk
  | some current =>
    rw [applyDelta, hcur] at hk
    simp only at hk
    by_cases hkd : k = d.asset_id
    · rw [if_pos hkd] at hk
      injection hk with hk
      subst hk
      have hcin := hb d.asset_id current hcur
      by_cases hside : d.side = "BUY"
      · have hinv := applyDeltaLevels_inv gtB gtB_trans gtB_total S hS
          d.side d.price d.size hdp
          (fun l => by rw [if_pos hside]; rfl)
          current.bids hcin.1 hcin.2.2.1
        exact ⟨by simpa [hside] using hinv.1, by simpa [hside] using hcin.2.1,
          by simpa [hside] using hinv.2, by simpa [hside] using hcin.2.2.2⟩
      · have hinv := applyDeltaLevels_inv ltB ltB_trans ltB_total S hS
          d.side d.price d.size hdp
          (fun l => by rw [if_neg hside]; rfl)
          current.asks hcin.2.1 hcin.2.2.2
        exact ⟨by simpa [hside] using hcin.1, by simpa [hside] using hinv.1,
          by simpa [hside] using hcin.2.2.1, by simpa [hside] using hinv.2⟩
    · rw [if_neg hkd] at hk
      exact hb k bk hk

/-- Any sequence of `applyDelta` calls preserves the invariant. -/
theorem runDeltas_BooksInv (S : List String) (hS : CanonicalPrices S) (now : ℤ) :
    ∀ (ds : List OrderBookDelta), (∀ d, d ∈ ds → d.price ∈ S) →
      ∀ (books : Books), BooksInv S books → BooksInv S (runDeltas now ds books)
  | [], _, _, hb => hb
  | d :: ds, hds, books, hb =>
    runDeltas_BooksInv S hS now ds
      (fun x hx => hds x (List.mem_cons_of_mem d hx))
      (applyDelta now d books)
      (applyDelta_BooksInv S hS now d (hds d (List.mem_cons_self d ds)) books hb)

/-- Strict numeric sortedness forces distinct price strings. -/
theorem sortedBy_pricesDistinct (cb : ℚ → ℚ → Bool)
    (hirr : ∀ x, cb x x = false)
    (ls : List OrderBookLevel) (hs : sortedBy cb ls) : pricesDistinct ls := by
  refine List.Pairwise.imp ?_ hs
  intro a b hab hpe
  rw [hpe] at hab
  cases hv : parseFloat b.price with
  | none => rw [hv] at hab; simp [liftCb] at hab
  | some v =>
    rw [hv] at hab
    simp only [liftCb] at hab
    rw [hirr v] at hab
    exact Bool.false_ne_true hab

theorem ltB_irrefl (x : ℚ) : ltB x x = false := by simp [ltB]

theorem gtB_irrefl (x : ℚ) : gtB x x = false := by simp [gtB]

/-! ### Zero-size levels -/

/-- The ladder transformation never stores a level of numeric size zero. -/
theorem applyDeltaLevels_noZero (side dp dsz : String) (ls : List OrderBookLevel)
    (h : noZeroSizes ls) : noZeroSizes (applyDeltaLevels side dp dsz ls) := by
  simp only [applyDeltaLevels]
  by_cases hz : parseFloat dsz = some 0
  · rw [if_pos hz]
    cases hf : findIndex (fun l => l.price = dp) ls with
    | none => exact h
    | some i =>
      intro l hl
      exact h l ((removeAt_sublist ls i).subset hl)
  · rw [if_neg hz]
    cases hf : findIndex (fun l => l.price = dp) ls with
    | some i =>
      intro l hl
      rcases mem_setAt ls i _ l hl with rfl | hl
      · exact hz
      · exact h l hl
    | none =>
      rw [insert_match_eq_insertP]
      intro l hl
      rcases mem_insertP _ _ ls l hl with rfl | hl
      · exact hz
      · exact h l hl

/-- `applyDelta` preserves freedom from size-zero levels, unconditionally. -/
theorem applyDelta_zeroFree (now : ℤ) (d : OrderBookDelta) (books : Books)
    (hb : BooksZeroFree books) : BooksZeroFree (applyDelta now d books) := by
  intro k bk hk
  cases hcur : books d.asset_id with
  | none =>
    rw [applyDelta, hcur] at hk
    exact hb k bk hk
  | some current =>
    rw [applyDelta, hcur] at hk
    simp only at hk
    by_cases hkd : k = d.asset_id
    · rw [if_pos hkd] at hk
      injection hk with hk
      subst hk
      have hcin := hb d.asset_id current hcur
      by_cases hside : d.side = "BUY"
      · refine ⟨?_, ?_⟩
        · simpa [hside] using
            applyDeltaLevels_noZero d.side d.price d.size current.bids hcin.1
        · simpa [hside] using hcin.2
      · refine ⟨?_, ?_⟩
        · simpa [hside] using hcin.1
        · simpa [hside] using
            applyDeltaLevels_noZero d.side d.price d.size current.asks hcin.2
    · rw [if_neg hkd] at hk
      exact hb k bk hk

/-- `setSnapshot` yields zero-free books when the snapshot's ladders are
zero-free (it stores them verbatim). -/
theorem setSnapshot_zeroFree (now : ℤ) (assetId : String)
    (s : OrderBookSnapshot) (books : Books)
    (hb : BooksZeroFree books)
    (hs : noZeroSizes s.bids ∧ noZeroSizes s.asks) :
    BooksZeroFree (setSnapshot now assetId s books) := by
  intro k bk hk
  rw [setSnapshot] at hk
  by_cases hka : k = assetId
  · rw [if_pos hka] at hk
    injection hk with hk
    subst hk
    exact hs
  · rw [if_neg hka] at hk
    exact hb k bk hk

/-! ### Subscriber map lemmas -/

theorem mapGet_mapPut_self (k : String) (v : Finset ℕ) :
    ∀ m : List (String × Finset ℕ),
      mapGet (mapPut m k v) k = (mapGet m k).map (fun _ => v)
  | [] => by simp [mapGet, mapPut]
  | e :: es => by
    by_cases he : e.1 = k
    · simp [mapGet, mapPut, he]
    · have h1 : mapPut (e :: es) k v = e :: mapPut es k v := by
        simp [mapPut, he]
      rw [h1]
      simp [mapGet, he, mapGet_mapPut_self k v es]

theorem mapPut_mapPut (k : String) (v w : Finset ℕ)
    (m : List (String × Finset ℕ)) :
    mapPut (mapPut m k v) k w = mapPut m k w := by
  simp only [mapPut, List.map_map]
  refine List.map_congr_left ?_
  intro e _
  by_cases he : e.1 = k <;> simp [he]

/-- Helper: the ladder is untouched by a size-zero delta at an absent price. -/
theorem applyDeltaLevels_zero_absent (side dp dsz : String)
    (ls : List OrderBookLevel)
    (hz : parseFloat dsz = some 0)
    (habs : findIndex (fun l => l.price = dp) ls = none) :
    applyDeltaLevels side dp dsz ls = ls := by
  simp [applyDeltaLevels, hz, habs]

/-! ### Claim theorems -/

/-- C4: a delta whose `asset_id` has no stored book leaves the whole
`orderBooks` state unchanged and creates no book for that instrument. -/
theorem applyDelta_unknown_asset_noop (now : ℤ) (d : OrderBookDelta)
    (books : Books) (h : books d.asset_id = none) :
    applyDelta now d books = books ∧ applyDelta now d books d.asset_id = none := by
  have h1 : applyDelta now d books = books := by
    rw [applyDelta, h]
  exact ⟨h1, by rw [h1, h]⟩

/-- Witness for C4 at a concrete delta and the empty store. -/
theorem applyDelta_unknown_asset_noop_witness :
    applyDelta 0
        { asset_id := "X", side := "BUY", price := "0.5", size := "1",
          timestamp := none } (fun _ => none) = (fun _ => none) ∧
    applyDelta 0
        { asset_id := "X", side := "BUY", price := "0.5", size := "1",
          timestamp := none } (fun _ => none) "X" = none :=
  applyDelta_unknown_asset_noop 0 _ (fun _ => none) rfl

/-- C6: snapshot `bids=[(0.50,100),(0.49,50)]`, `asks=[(0.51,80)]`, then delta
`{side: BUY, price: 0.50, size: 0}` yields `bids=[(0.49,50)]` with the asks
ladder unchanged. -/
theorem scenario_zero_delta_removes_level :
    runOps 0 [.snap "A" exScenarioSnap, .delta exScenarioDelta] (fun _ => none) "A"
      = some { bids := [{ price := "0.49", size := "50" }],
               asks := [{ price := "0.51", size := "80" }],
               lastUpdate := some 2 } := by
  decide

/-- C7: on a book with `asks=[(0.51,80)]`, delta
`{side: SELL, price: 0.52, size: 30}` inserts after `0.51`, preserving
ascending order: `asks=[(0.51,80),(0.52,30)]`. -/
theorem scenario_insert_preserves_ascending :
    applyDelta 0 exInsertDelta
        (singleBook { bids := [{ price := "0.49", size := "50" }],
                      asks := [{ price := "0.51", size := "80" }],
                      lastUpdate := some 2 }) "A"
      = some { bids := [{ price := "0.49", size := "50" }],
               asks := [{ price := "0.51", size := "80" },
                        { price := "0.52", size := "30" }],
               lastUpdate := some 3 } ∧
    asksOrdered [{ price := "0.51", size := "80" }, { price := "0.52", size := "30" }] := by
  constructor
  · decide
  · decide

/-- C9: `applyDelta` only touches the targeted instrument's targeted side:
all other keys map to the same data, and within the targeted book the
opposite ladder is unchanged. -/
theorem applyDelta_frame (now : ℤ) (d : OrderBookDelta) (books : Books)
    (current : OrderBookData) (hcur : books d.asset_id = some current) :
    (∀ k, k ≠ d.asset_id → applyDelta now d books k = books k) ∧
    (d.side = "BUY" →
      (applyDelta now d books d.asset_id).map OrderBookData.asks
        = some current.asks) ∧
    (d.side ≠ "BUY" →
      (applyDelta now d books d.asset_id).map OrderBookData.bids
        = some current.bids) := by
  refine ⟨?_, ?_, ?_⟩
  · intro k hk
    rw [applyDelta, hcur]
    simp only
    rw [if_neg hk]
  · intro hside
    rw [applyDelta, hcur]
    simp [hside]
  · intro hside
    rw [applyDelta, hcur]
    simp [hside]

/-- Witness for C9 on a concrete one-instrument store. -/
theorem applyDelta_frame_witness :
    (∀ k, k ≠ "A" →
      applyDelta 0 exInsertDelta (singleBook exBook1) k = singleBook exBook1 k) ∧
    ((("SELL" : String) = "BUY") →
      (applyDelta 0 exInsertDelta (singleBook exBook1) "A").map OrderBookData.asks
        = some exBook1.asks) ∧
    ((("SELL" : String) ≠ "BUY") →
      (applyDelta 0 exInsertDelta (singleBook exBook1) "A").map OrderBookData.bids
        = some exBook1.bids) :=
  applyDelta_frame 0 exInsertDelta (singleBook exBook1) exBook1 rfl

/-- Helper: for any non-`"BUY"` side the ladder transformation coincides with
the `"SELL"` one. -/
theorem applyDeltaLevels_side_ne (side dp dsz : String)
    (ls : List OrderBookLevel) (h : side ≠ "BUY") :
    applyDeltaLevels side dp dsz ls = applyDeltaLevels "SELL" dp dsz ls := by
  simp [applyDeltaLevels, h]

/-- C10: the ladder is selected solely by `side === "BUY"`: `"BUY"` targets
the bids, and any other side string — `"SELL"` or unrecognized — is applied
to the asks exactly as `"SELL"` would be. -/
theorem applyDelta_side_dispatch (now : ℤ) (d : OrderBookDelta) (books : Books)
    (current : OrderBookData) (hcur : books d.asset_id = some current) :
    ((applyDelta now d books d.asset_id).map OrderBookData.bids
      = some (if d.side = "BUY"
              then applyDeltaLevels d.side d.price d.size current.bids
              else current.bids)) ∧
    ((applyDelta now d books d.asset_id).map OrderBookData.asks
      = some (if d.side = "BUY"
              then current.asks
              else applyDeltaLevels d.side d.price d.size current.asks)) ∧
    (d.side ≠ "BUY" →
      applyDelta now d books = applyDelta now { d with side := "SELL" } books) := by
  refine ⟨?_, ?_, ?_⟩
  · rw [applyDelta, hcur]
    by_cases hside : d.side = "BUY" <;> simp [hside]
  · rw [applyDelta, hcur]
    by_cases hside : d.side = "BUY" <;> simp [hside]
  · intro hside
    funext k
    simp only [applyDelta, hcur]
    simp [hside, applyDeltaLevels_side_ne d.side d.price d.size current.asks hside]

/-- Witness for C10 on a concrete one-instrument store and an unrecognized
side string. -/
theorem applyDelta_side_dispatch_witness :
    ((applyDelta 0
        { asset_id := "A", side := "bogus", price := "0.7", size := "2",
          timestamp := none } (singleBook exBook1) "A").map OrderBookData.bids
      = some (if ("bogus" : String) = "BUY"
              then applyDeltaLevels "bogus" "0.7" "2" exBook1.bids
              else exBook1.bids)) ∧
    ((applyDelta 0
        { asset_id := "A", side := "bogus", price := "0.7", size := "2",
          timestamp := none } (singleBook exBook1) "A").map OrderBookData.asks
      = some (if ("bogus" : String) = "BUY"
              then exBook1.asks
              else applyDeltaLevels "bogus" "0.7" "2" exBook1.asks)) ∧
    ((("bogus" : String) ≠ "BUY") →
      applyDelta 0
        { asset_id := "A", side := "bogus", price := "0.7", size := "2",
          timestamp := none } (singleBook exBook1)
      = applyDelta 0
          { asset_id := "A", side := "SELL", price := "0.7", size := "2",
            timestamp := none } (singleBook exBook1)) :=
  applyDelta_side_dispatch 0
    { asset_id := "A", side := "bogus", price := "0.7", size := "2",
      timestamp := none } (singleBook exBook1) exBook1 rfl

/-- C1 counterexample: a snapshot whose timestamp 50 is older than the stored
`lastUpdate` 100 is *not* dropped: it replaces the book. -/
theorem setSnapshot_stale_overwrites :
    singleBook exBook1 "A" = some exBook1 ∧
    exBook1.lastUpdate = some 100 ∧
    exStaleSnap.timestamp = some 50 ∧
    (50 : ℤ) < 100 ∧
    setSnapshot 0 "A" exStaleSnap (singleBook exBook1) "A" ≠ some exBook1 := by
  decide

/-- C1 (corrected): `setSnapshot` performs no timestamp comparison: even when
the snapshot's timestamp is strictly older than the stored `lastUpdate`,
the stored book is replaced wholesale by the snapshot's ladders and
timestamp. -/
theorem setSnapshot_installs_unconditionally (now : ℤ) (assetId : String)
    (s : OrderBookSnapshot) (books : Books) (current : OrderBookData)
    (_hcur : books assetId = some current)
    (t u : ℤ) (hts : s.timestamp = some t) (_hlu : current.lastUpdate = some u)
    (_hstale : t < u) (ht0 : t ≠ 0) :
    setSnapshot now assetId s books assetId
      = some { bids := s.bids, asks := s.asks, lastUpdate := some t } := by
  rw [setSnapshot]
  rw [if_pos rfl, hts]
  simp [jsOrNow, ht0]

/-- Witness for C1 at the stale-snapshot example. -/
theorem setSnapshot_installs_unconditionally_witness :
    setSnapshot 0 "A" exStaleSnap (singleBook exBook1) "A"
      = some { bids := exStaleSnap.bids, asks := exStaleSnap.asks,
               lastUpdate := some 50 } :=
  setSnapshot_installs_unconditionally 0 "A" exStaleSnap (singleBook exBook1)
    exBook1 rfl 50 100 rfl rfl (by decide) (by decide)

/-- C5 counterexample: a size-zero delta at a price absent from the targeted
ladder still changes the stored book — `lastUpdate` is refreshed. -/
theorem zero_delta_absent_changes_book :
    parseFloat exAbsentZeroDelta.size = some 0 ∧
    findIndex (fun l => l.price = exAbsentZeroDelta.price) exBook1.asks = none ∧
    singleBook exBook1 "A" = some exBook1 ∧
    applyDelta 0 exAbsentZeroDelta (singleBook exBook1) "A" ≠ some exBook1 := by
  decide

/-- C5 (corrected): a size-zero delta whose price is absent from the targeted
ladder leaves both ladders unchanged, but the stored book is still updated:
`lastUpdate` becomes the delta's timestamp (or `now` when that is falsy). -/
theorem applyDelta_zero_absent_keeps_ladders (now : ℤ) (d : OrderBookDelta)
    (books : Books) (current : OrderBookData)
    (hcur : books d.asset_id = some current)
    (hz : parseFloat d.size = some 0)
    (habs : findIndex (fun l => l.price = d.price)
        (if d.side = "BUY" then current.bids else current.asks) = none) :
    applyDelta now d books d.asset_id
      = some { bids := current.bids, asks := current.asks,
               lastUpdate := some (jsOrNow d.timestamp now) } := by
  rw [applyDelta, hcur]
  by_cases hside : d.side = "BUY"
  · rw [if_pos hside] at habs
    simp [hside,
      applyDeltaLevels_zero_absent "BUY" d.price d.size current.bids hz habs]
  · rw [if_neg hside] at habs
    simp [hside,
      applyDeltaLevels_zero_absent d.side d.price d.size current.asks hz habs]

/-- Witness for C5 at the concrete absent-price zero delta. -/
theorem applyDelta_zero_absent_keeps_ladders_witness :
    applyDelta 0 exAbsentZeroDelta (singleBook exBook1) "A"
      = some { bids := exBook1.bids, asks := exBook1.asks,
               lastUpdate := some 7 } :=
  applyDelta_zero_absent_keeps_ladders 0 exAbsentZeroDelta (singleBook exBook1)
    exBook1 rfl (by decide) (by decide)

/-- C2 counterexample: starting from a strictly sorted book with unique
prices, a delta whose price string `"0.50"` is numerically equal to the
stored `"0.5"` but not string-equal escapes the string-equality match and
is inserted, leaving two levels of equal numeric price: the asks ladder is
no longer strictly ascending. -/
theorem dup_price_string_breaks_sorted :
    bidsOrdered exBook1.bids ∧ asksOrdered exBook1.asks ∧
    pricesDistinct exBook1.bids ∧ pricesDistinct exBook1.asks ∧
    parseFloat exDupDelta.price = parseFloat "0.5" ∧
    runDeltas 0 [exDupDelta] (singleBook exBook1) "A"
      = some { bids := [],
               asks := [{ price := "0.5", size := "1" },
                        { price := "0.50", size := "2" }],
               lastUpdate := some 3 } ∧
    ¬ asksOrdered [{ price := "0.5", size := "1" },
                   { price := "0.50", size := "2" }] := by
  decide

/-- C2 (corrected): over a canonical pool of price strings (every pool member
parses, and numerically equal members are string-identical), any finite
sequence of `applyDelta` calls whose delta prices are drawn from the pool
preserves strict sortedness of both ladders of every stored book, and with
it uniqueness of prices per side. -/
theorem runDeltas_preserves_sorted (S : List String) (hS : CanonicalPrices S)
    (now : ℤ) (ds : List OrderBookDelta) (hds : ∀ d, d ∈ ds → d.price ∈ S)
    (books : Books) (hb : BooksInv S books) :
    BooksInv S (runDeltas now ds books) ∧
    ∀ k bk, runDeltas now ds books k = some bk →
      pricesDistinct bk.bids ∧ pricesDistinct bk.asks := by
  have h := runDeltas_BooksInv S hS now ds hds books hb
  refine ⟨h, ?_⟩
  intro k bk hk
  exact ⟨sortedBy_pricesDistinct gtB gtB_irrefl bk.bids (h k bk hk).1,
    sortedBy_pricesDistinct ltB ltB_irrefl bk.asks (h k bk hk).2.1⟩

/-- Witness for C2 on a one-instrument store and one canonical delta. -/
theorem runDeltas_preserves_sorted_witness :
    (BooksInv ["0.49", "0.50", "0.51"]
      (runDeltas 0
        [{ asset_id := "A", side := "BUY", price := "0.50", size := "5",
           timestamp := none }]
        (singleBook { bids := [{ price := "0.51", size := "3" }], asks := [],
                      lastUpdate := some 1 })) ∧
    ∀ k bk, runDeltas 0
        [{ asset_id := "A", side := "BUY", price := "0.50", size := "5",
           timestamp := none }]
        (singleBook { bids := [{ price := "0.51", size := "3" }], asks := [],
                      lastUpdate := some 1 }) k = some bk →
      pricesDistinct bk.bids ∧ pricesDistinct bk.asks) :=
  runDeltas_preserves_sorted ["0.49", "0.50", "0.51"] (by decide) 0 _
    (by decide) _
    (by
      intro k bk hk
      simp only [singleBook] at hk
      by_cases h : k = "A"
      · rw [if_pos h] at hk
        injection hk with hk
        subst hk
        decide
      · rw [if_neg h] at hk
        exact Option.noConfusion hk)

/-- C3 counterexample: `setSnapshot` stores the snapshot ladders verbatim, so
a snapshot carrying a size-zero level yields a reachable book holding a
level of numeric size zero. -/
theorem snapshot_zero_level_stored :
    parseFloat "0" = some 0 ∧
    runOps 0 [.snap "A" exZeroSnap] (fun _ => none) "A"
      = some { bids := [{ price := "0.5", size := "0" }], asks := [],
               lastUpdate := some 1 } ∧
    ¬ noZeroSizes [{ price := "0.5", size := "0" }] := by
  decide

/-- C3 (corrected): along any sequence of `setSnapshot`/`applyDelta` calls,
no stored book ever holds a size-zero level *provided every applied
snapshot's ladders are themselves zero-free*; `applyDelta` on its own never
stores one (a size-zero delta removes or no-ops), but snapshot contents
are not filtered. -/
theorem runOps_zeroFree (now : ℤ) :
    ∀ (ops : List BookOp), (∀ op, op ∈ ops → opSnapZeroFree op) →
      ∀ (books : Books), BooksZeroFree books →
        BooksZeroFree (runOps now ops books)
  | [], _, _, hb => hb
  | op :: ops, hops, books, hb => by
    have hstep : BooksZeroFree (runOp now books op) := by
      cases op with
      | snap a s =>
        exact setSnapshot_zeroFree now a s books hb
          (hops _ (List.mem_cons_self _ _))
      | delta d => exact applyDelta_zeroFree now d books hb
    exact runOps_zeroFree now ops
      (fun x hx => hops x (List.mem_cons_of_mem op hx))
      (runOp now books op) hstep

/-- Witness for C3 on the spec scenario operations, from the empty store. -/
theorem runOps_zeroFree_witness :
    BooksZeroFree
      (runOps 0 [.snap "A" exScenarioSnap, .delta exScenarioDelta]
        (fun _ => none)) :=
  runOps_zeroFree 0 [.snap "A" exScenarioSnap, .delta exScenarioDelta]
    (by decide) (fun _ => none) (fun k bk hk => Option.noConfusion hk)

/-- Helper: deleting the same callback twice changes nothing the second
time. -/
theorem unsubCbs_idem (e : String) (cb : ℕ) (m : List (String × Finset ℕ)) :
    unsubCbs e cb (unsubCbs e cb m) = unsubCbs e cb m := by
  cases hg : mapGet m e with
  | none =>
    have h1 : unsubCbs e cb m = m := by rw [unsubCbs, hg]
    rw [h1]
    exact h1
  | some s =>
    have h1 : unsubCbs e cb m = mapPut m e (s.erase cb) := by rw [unsubCbs, hg]
    have h2 : mapGet (mapPut m e (s.erase cb)) e = some (s.erase cb) := by
      rw [mapGet_mapPut_self, hg]
      rfl
    have h3 : unsubCbs e cb (mapPut m e (s.erase cb))
        = mapPut (mapPut m e (s.erase cb)) e ((s.erase cb).erase cb) := by
      rw [unsubCbs, h2]
    rw [h1, h3, Finset.erase_idem, mapPut_mapPut]

/-- C8: the unsubscribe handle of the web event subscriber is idempotent:
invoking it a second (or any further) time leaves the subscriber state
exactly as after the first invocation, from any state — including after
the connection has already been torn down. -/
theorem unsubscribe_idem (e : String) (cb : ℕ) (st : WebSubscriberState) :
    unsubscribe e cb (unsubscribe e cb st) = unsubscribe e cb st := by
  show ({ callbacks := unsubCbs e cb (unsubscribe e cb st).callbacks,
          eventSourceOpen :=
            if totalSubscribers (unsubCbs e cb (unsubscribe e cb st).callbacks) = 0
            then false else (unsubscribe e cb st).eventSourceOpen }
        : WebSubscriberState)
      = unsubscribe e cb st
  have hc : (unsubscribe e cb st).callbacks = unsubCbs e cb st.callbacks := rfl
  rw [hc, unsubCbs_idem]
  by_cases ht : totalSubscribers (unsubCbs e cb st.callbacks) = 0
  · simp only [unsubscribe, ht, if_pos]
  · simp only [unsubscribe, ht, if_neg, not_false_iff]

end Puglies
